import Mathlib

/-!
Verification of the course-data extraction engine (content.js) and the popup
request orchestrator (popup.js) of the course-data browser extension.

The JavaScript source is shallowly embedded: pure text normalizers become Lean
functions over strings (processed as character lists), DOM reads are modelled by
records holding the query results the code consults, the document walker becomes
an explicit fold carrying the mutable-local state of the source loop, and the
async orchestration in popup.js is modelled as a function of an environment
record describing the outcomes of each external effect, paired with a trace of
the effects performed.

Host-platform builtins are modelled to the extent the code exercises them:
JS Number() coercion is modelled for whitespace-padded, optionally signed
decimal numerals (with optional fractional part) and the empty string (which
coerces to 0); the exotic forms (hex/octal/binary literals, exponents,
"Infinity") are treated as NaN, and WHATWG URL resolution is modelled as plain
origin-relative concatenation, since no verified property depends on them.
-/

set_option maxHeartbeats 1000000

namespace CourseExtractor

/-! ### Character classes -/

/-- The whitespace class used by JS regex \s and String.trim (common members). -/
def isJsWs (c : Char) : Bool :=
  c = ' ' || c = '\t' || c = '\n' || c = '\r' || c = '\x0b' || c = '\x0c' ||
  c = '\u00A0' || c = '\uFEFF'

def isAsciiDigit (c : Char) : Bool :=
  '0' ≤ c && c ≤ '9'

def isAsciiLetter (c : Char) : Bool :=
  ('a' ≤ c && c ≤ 'z') || ('A' ≤ c && c ≤ 'Z')

/-- Word characters for the JS regex word-boundary assertion \b. -/
def isWordChar (c : Char) : Bool :=
  isAsciiDigit c || isAsciiLetter c || c = '_'

def asciiLowerCh (c : Char) : Char :=
  if 'A' ≤ c && c ≤ 'Z' then Char.ofNat (c.toNat + 32) else c

/-- Embedding of JS String.prototype.toLowerCase, restricted to ASCII. -/
def asciiLower (s : String) : String :=
  ⟨s.data.map asciiLowerCh⟩

/-! ### List-of-characters utilities shared by the normalizers -/

/-- Splitting on a single separator character, with JS String.split semantics:
splitting the empty string yields one empty part. -/
def splitOnCh (sep : Char) : List Char → List (List Char)
  | [] => [[]]
  | c :: cs =>
    let r := splitOnCh sep cs
    if c = sep then [] :: r
    else
      match r with
      | [] => [[c]]
      | h :: t => (c :: h) :: t

/-- Does the second list start with the first? -/
def startsWithCh : List Char → List Char → Bool
  | [], _ => true
  | _ :: _, [] => false
  | p :: ps, c :: cs => p = c && startsWithCh ps cs

/-- Embedding of JS String.prototype.includes (substring search). -/
def containsSub (needle : List Char) : List Char → Bool
  | [] => needle.isEmpty
  | c :: cs => startsWithCh needle (c :: cs) || containsSub needle cs

/-- Collapse each maximal whitespace run to a single space
(the replace of a \s+ global pattern by one space in cleanText); phrased as a
structural two-character lookahead: a whitespace character followed by another
whitespace character is dropped, so each run keeps exactly one space. -/
def collapseWs : List Char → List Char
  | [] => []
  | [c] => if isJsWs c then [' '] else [c]
  | c1 :: c2 :: rest =>
    if isJsWs c1 && isJsWs c2 then collapseWs (c2 :: rest)
    else (if isJsWs c1 then ' ' else c1) :: collapseWs (c2 :: rest)

/-- Embedding of JS String.prototype.trim (after collapseWs only plain
spaces remain at the ends, but the general class is used). -/
def trimEnds (l : List Char) : List Char :=
  ((l.dropWhile isJsWs).reverse.dropWhile isJsWs).reverse

/-- Numeric value of a digit run. -/
def digitsVal (l : List Char) : Nat :=
  l.foldl (fun a c => a * 10 + (c.toNat - '0'.toNat)) 0

/-! ### cleanText (content.js lines 49-54) -/

/-- cleanText: strip zero-width spaces, collapse whitespace runs to single
spaces, trim the ends.  The JS (value or empty-string) null guard is outside
the string domain of this embedding. -/
def cleanText (value : String) : String :=
  ⟨trimEnds (collapseWs (value.data.filter (fun c => c ≠ '\u200B')))⟩

/-! ### JS Number() coercion (see the module comment for modelling scope)

Finite JS number values arising here are exact rationals; they are embedded as
explicit numerator/denominator pairs so that every arithmetic step is a plain
integer computation.  Every value built below has a positive denominator
(denominators are 1, powers of ten, and products of those), which is proved
where a theorem needs it. -/

/-- An exact rational JS number value: numerator over positive denominator
(the fraction is not kept normalized). -/
structure JsNum where
  num : Int
  den : Nat
deriving Repr, DecidableEq

def jsZero : JsNum := ⟨0, 1⟩

def JsNum.add (a b : JsNum) : JsNum :=
  ⟨a.num * b.den + b.num * a.den, a.den * b.den⟩

def JsNum.sub (a b : JsNum) : JsNum :=
  ⟨a.num * b.den - b.num * a.den, a.den * b.den⟩

/-- Multiplication by an integer constant (the 3600 and 60 factors). -/
def JsNum.scale (k : Int) (a : JsNum) : JsNum :=
  ⟨k * a.num, a.den⟩

/-- The strict order on values, by cross multiplication; it is the rational
order whenever both denominators are positive. -/
def JsNum.blt (a b : JsNum) : Bool :=
  a.num * b.den < b.num * a.den

/-- Embedding of JS Number(string): trims whitespace, maps the empty string to
0, parses an optionally signed decimal numeral with optional fractional part;
none models NaN. -/
def jsNumber (s : String) : Option JsNum :=
  let t := trimEnds s.data
  match t with
  | [] => some jsZero
  | _ =>
    let signRest : Int × List Char :=
      match t with
      | '-' :: r => (-1, r)
      | '+' :: r => (1, r)
      | r => (1, r)
    let intPart := signRest.2.takeWhile isAsciiDigit
    let rest2 := signRest.2.dropWhile isAsciiDigit
    match rest2 with
    | [] =>
      if intPart.isEmpty then none
      else some ⟨signRest.1 * digitsVal intPart, 1⟩
    | '.' :: fr =>
      let fracPart := fr.takeWhile isAsciiDigit
      let rest3 := fr.dropWhile isAsciiDigit
      if rest3.isEmpty && (!intPart.isEmpty || !fracPart.isEmpty) then
        some ⟨signRest.1 * (digitsVal intPart * 10 ^ fracPart.length + digitsVal fracPart),
          10 ^ fracPart.length⟩
      else none
    | _ => none

/-- Embedding of JS Math.round on the value n over d with d positive: the
floor of n over d plus one half, that is the floor integer division of
2n + d by 2d (ties round toward positive infinity). -/
def jsRound (q : JsNum) : Int :=
  Int.fdiv (2 * q.num + q.den) (2 * q.den)

/-- Division of a rounded difference by sixty: the value n over d divided by
sixty is n over 60 d. -/
def JsNum.divSixty (a : JsNum) : JsNum :=
  ⟨a.num, a.den * 60⟩

/-! ### extractMinutes (content.js lines 62-84)

The three regex searches of the source are embedded as first-match scans over
digit runs.  Each pattern starts with a captured digit run; because the digit,
whitespace and letter character classes are disjoint, the leftmost regex match
always starts at the beginning of a maximal digit run and captures the whole
run, with a fixed continuation check after it. -/

/-- Continuation of the hours pattern: optional whitespace then the literal
hour (the optional trailing s never affects whether a match exists). -/
def hourTail (l : List Char) : Bool :=
  startsWithCh "hour".data (l.dropWhile isJsWs)

/-- Continuation of the minutes pattern: optional whitespace then the literal
minute. -/
def minuteTail (l : List Char) : Bool :=
  startsWithCh "minute".data (l.dropWhile isJsWs)

/-- Continuation of the short pattern min with optional s and a word boundary:
after the literal min, either an s followed by a non-word position, or directly
a non-word position. -/
def minShortTail (l : List Char) : Bool :=
  let r := l.dropWhile isJsWs
  startsWithCh "min".data r &&
    (match r.drop 3 with
     | [] => true
     | 's' :: r2 =>
       match r2 with
       | [] => true
       | c :: _ => !isWordChar c
     | c :: _ => !isWordChar c)

/-- First-match scan for a digit-run-then-continuation pattern; the Boolean
flag marks being inside an already rejected digit run, so that a new match
attempt only starts at the beginning of a maximal run. -/
def findNumAux (tail : List Char → Bool) : Bool → List Char → Option Nat
  | _, [] => none
  | inRun, c :: cs =>
    if isAsciiDigit c then
      if inRun then findNumAux tail true cs
      else if tail (cs.dropWhile isAsciiDigit) then
        some (digitsVal (c :: cs.takeWhile isAsciiDigit))
      else findNumAux tail true cs
    else findNumAux tail false cs

/-- First-match scan for a digit-run-then-continuation pattern: returns the
numeric value of the captured digit run of the leftmost match. -/
def findNumBefore (tail : List Char → Bool) (l : List Char) : Option Nat :=
  findNumAux tail false l

/-- extractMinutes: duration text to a string-encoded minute count. -/
def extractMinutes (value : String) : String :=
  let text := asciiLower (cleanText value)
  if text = "" then ""
  else
    let l := text.data
    let hoursMatch := findNumBefore hourTail l
    let minutesMatch := findNumBefore minuteTail l
    let minShortMatch := findNumBefore minShortTail l
    match hoursMatch, minutesMatch with
    | some h, some m => toString (h * 60 + m)
    | some h, none => toString (h * 60 + 0)
    | none, some m => toString (0 * 60 + m)
    | none, none =>
      match minShortMatch with
      | some n => toString n
      | none =>
        match findNumBefore (fun _ => true) l with
        | some n => toString n
        | none => ""

/-! ### timestampToSeconds (content.js lines 92-111) -/

/-- timestampToSeconds: HH:MM:SS, MM:SS or SS to seconds; none models the JS
null sentinel.  The emptiness guard of the source is kept even though a JS
split never returns an empty array. -/
def timestampToSeconds (value : String) : Option JsNum :=
  let parts := (splitOnCh ':' (cleanText value).data).map (fun p => jsNumber ⟨p⟩)
  if parts.isEmpty || parts.any (fun p => p.isNone) then none
  else
    match parts with
    | [h, m, s] =>
      some (JsNum.add (JsNum.add (JsNum.scale 3600 (h.getD jsZero))
        (JsNum.scale 60 (m.getD jsZero))) (s.getD jsZero))
    | [m, s] => some (JsNum.add (JsNum.scale 60 (m.getD jsZero)) (s.getD jsZero))
    | [s] => some (s.getD jsZero)
    | _ => none

/-! ### getDurationFromTimeRange (content.js lines 119-137) -/

/-- getDurationFromTimeRange: start-end time range to a string-encoded
minute count; splits on every dash and requires exactly two parts. -/
def getDurationFromTimeRange (value : String) : String :=
  let range := cleanText value
  if range = "" then ""
  else
    let parts := (splitOnCh '-' range.data).map (fun p => cleanText ⟨p⟩)
    match parts with
    | [p0, p1] =>
      match timestampToSeconds p0, timestampToSeconds p1 with
      | some s, some e =>
        if JsNum.blt e s then "" else toString (jsRound (JsNum.divSixty (JsNum.sub e s)))
      | _, _ => ""
    | _ => ""

/-! ### getCourseSlug (content.js lines 145-151) -/

/-- getCourseSlug: the second non-empty path segment, provided the first is
the literal courses. -/
def getCourseSlug (pathname : String) : String :=
  let parts := ((splitOnCh '/' pathname.data).map (fun p => (⟨p⟩ : String))).filter
    (fun s => s ≠ "")
  match parts with
  | p0 :: p1 :: _ => if p0 = "courses" then p1 else ""
  | _ => ""

/-! ### normalizePublishedDate (content.js lines 242-279) -/

/-- Shape test for the anchored YYYY-MM-DD regex. -/
def ymdShape (l : List Char) : Bool :=
  match l with
  | [a, b, c, d, '-', e, f, '-', g, h] =>
    isAsciiDigit a && isAsciiDigit b && isAsciiDigit c && isAsciiDigit d &&
    isAsciiDigit e && isAsciiDigit f && isAsciiDigit g && isAsciiDigit h
  | _ => false

/-- The fixed 12-entry month table of the source. -/
def monthMap (s : String) : Option String :=
  if s = "january" then some "01"
  else if s = "february" then some "02"
  else if s = "march" then some "03"
  else if s = "april" then some "04"
  else if s = "may" then some "05"
  else if s = "june" then some "06"
  else if s = "july" then some "07"
  else if s = "august" then some "08"
  else if s = "september" then some "09"
  else if s = "october" then some "10"
  else if s = "november" then some "11"
  else if s = "december" then some "12"
  else none

/-- Anchored match of the long-month pattern: a letter run, whitespace, a one
or two digit day directly followed by a comma, optional whitespace, exactly
four digits and end of input.  Returns month name, day value, year digits. -/
def parseLongMonth (l : List Char) : Option (String × Nat × String) :=
  let letters := l.takeWhile isAsciiLetter
  let r1 := l.dropWhile isAsciiLetter
  if letters.isEmpty then none
  else if (r1.takeWhile isJsWs).isEmpty then none
  else
    let r2 := r1.dropWhile isJsWs
    let dayDigits := r2.takeWhile isAsciiDigit
    let r3 := r2.dropWhile isAsciiDigit
    if dayDigits.length = 0 || 2 < dayDigits.length then none
    else
      match r3 with
      | ',' :: r4 =>
        let r5 := r4.dropWhile isJsWs
        let yearDigits := r5.takeWhile isAsciiDigit
        let r6 := r5.dropWhile isAsciiDigit
        if yearDigits.length = 4 && r6.isEmpty then
          some (⟨letters⟩, digitsVal dayDigits, ⟨yearDigits⟩)
        else none
      | _ => none

/-- The padStart of the day: String(Number(day)) left-padded to two digits. -/
def padDay (n : Nat) : String :=
  if n < 10 then "0" ++ toString n else toString n

/-- normalizePublishedDate: pass YYYY-MM-DD through, convert a long-month
date through the month table, anything else to the empty string. -/
def normalizePublishedDate (value : String) : String :=
  let text := cleanText value
  if text = "" then ""
  else if ymdShape text.data then text
  else
    match parseLongMonth text.data with
    | some (monName, day, year) =>
      match monthMap (asciiLower monName) with
      | some m => year ++ "-" ++ m ++ "-" ++ padDay day
      | none => ""
    | none => ""

/-! ### URL helpers (content.js lines 159-183)

The URL constructor of the host is modelled as origin-relative concatenation;
absolute http(s) inputs pass through. -/

def toAbsoluteUrl (origin : String) (value : String) : String :=
  let href := cleanText value
  if href = "" then ""
  else if startsWithCh "http://".data href.data || startsWithCh "https://".data href.data then
    href
  else if startsWithCh "/".data href.data then origin ++ href
  else origin ++ "/" ++ href

def buildCourseUrl (origin : String) (slug : String) : String :=
  if slug = "" then "" else origin ++ "/courses/" ++ slug ++ "/"

/-! ### DOM model

Records hold the results of the DOM queries the source performs; an Option
models a possibly missing element or attribute. -/

/-- An anchor element: its text content and its href attribute (the attribute
itself may be absent on a present element). -/
structure AnchorNode where
  text : String
  href : Option String
deriving Repr, DecidableEq

/-- The a.timestamp anchor of a lesson item: its span texts in document order
and its href attribute. -/
structure TimestampNode where
  spanTexts : List String
  href : Option String
deriving Repr, DecidableEq

/-- One li.Course-Lesson-List-Item: the queried sub-elements. -/
structure LessonItem where
  titleAnchor : Option AnchorNode
  descriptionText : Option String
  timestampAnchor : Option TimestampNode
  thumbnailAnchor : Option AnchorNode
deriving Repr, DecidableEq

/-- One element of the walker input sequence: a .Course-Lesson-Group section
header (with its h3 text and .duration text when present) or a
ul.Course-Lesson-List with its lesson items in document order. -/
inductive WalkNode where
  | header (titleText : Option String) (durationText : Option String)
  | list (items : List LessonItem)
deriving Repr, DecidableEq

/-- An h3 element together with the first paragraph of its nearest content
wrapper (closest .content, else the parent element), when that exists. -/
structure H3Node where
  text : String
  wrapperParagraph : Option String
deriving Repr, DecidableEq

/-- The queried regions of the course page. -/
structure PageDom where
  headerTitle : Option String
  h3s : List H3Node
  contentParagraph : Option String
  tutorText : Option String
  headerMeta : Option String
  durationLabels : List String
  lessonSequence : List WalkNode
deriving Repr, DecidableEq

/-! ### Record builders (content.js lines 190-307) -/

/-- getCourseDescription: paragraph of the course-description heading wrapper,
else the first .content paragraph of the page, else empty. -/
def getCourseDescription (dom : PageDom) : String :=
  let fallback := cleanText ((dom.contentParagraph).getD "")
  match dom.h3s.find? (fun h => asciiLower (cleanText h.text) = "course description") with
  | some h =>
    match h.wrapperParagraph with
    | some p => cleanText p
    | none => fallback
  | none => fallback

/-- getPublishedDate: first duration-labeled node containing published, label
up to the first colon discarded. -/
def getPublishedDate (dom : PageDom) : String :=
  match dom.durationLabels.find?
      (fun t => containsSub "published".data (asciiLower (cleanText t)).data) with
  | none => ""
  | some t =>
    let text := cleanText t
    let parts := (splitOnCh ':' text.data).map (fun p => (⟨p⟩ : String))
    if 1 < parts.length then cleanText (String.intercalate ":" (parts.drop 1))
    else text

/-- The course-level record; the derived count and URL fields start at their
pre-assembly defaults, as in the source where they are set later. -/
structure CourseData where
  courseTitle : String
  courseDescription : String
  tutor : String
  totalDuration : String
  publishedDate : String
  sectionCount : Nat
  lessonCount : Nat
  courseUrl : String
deriving Repr, DecidableEq

/-- extractCourseData: top-level course metadata. -/
def extractCourseData (dom : PageDom) : CourseData :=
  { courseTitle := cleanText (dom.headerTitle.getD "")
    courseDescription := getCourseDescription dom
    tutor := cleanText (dom.tutorText.getD "")
    totalDuration := extractMinutes (dom.headerMeta.getD "")
    publishedDate := normalizePublishedDate (getPublishedDate dom)
    sectionCount := 0
    lessonCount := 0
    courseUrl := "" }

/-- extractTimeRange: text of the first span of the timestamp anchor. -/
def extractTimeRange (item : LessonItem) : String :=
  match item.timestampAnchor with
  | none => ""
  | some ts =>
    match ts.spanTexts with
    | [] => ""
    | s :: _ => cleanText s

/-- extractLessonUrl: href of the first present anchor among title, timestamp,
thumbnail, resolved against the origin. -/
def extractLessonUrl (origin : String) (item : LessonItem) : String :=
  let linkHref : Option String :=
    match item.titleAnchor with
    | some a => a.href
    | none =>
      match item.timestampAnchor with
      | some t => t.href
      | none =>
        match item.thumbnailAnchor with
        | some a => a.href
        | none => none
  toAbsoluteUrl origin (linkHref.getD "")

/-! ### The document walker (content.js lines 349-412) -/

/-- The current section carried across the traversal. -/
structure SectionRec where
  id : Nat
  title : String
  duration : String
deriving Repr, DecidableEq

/-- One produced lesson row. -/
structure Lesson where
  id : Nat
  title : String
  description : String
  duration : String
  timeRange : String
  lessonUrl : String
  sectionId : Nat
  sectionTitle : String
  sectionDuration : String
deriving Repr, DecidableEq

/-- Build one lesson row from an item, snapshotting the current section. -/
def mkLesson (origin : String) (lessonId : Nat) (sec : SectionRec)
    (item : LessonItem) : Lesson :=
  { id := lessonId
    title := cleanText (((item.titleAnchor).map AnchorNode.text).getD "")
    description := cleanText ((item.descriptionText).getD "")
    duration := getDurationFromTimeRange (extractTimeRange item)
    timeRange := extractTimeRange item
    lessonUrl := extractLessonUrl origin item
    sectionId := sec.id
    sectionTitle := sec.title
    sectionDuration := sec.duration }

/-- The mutable locals of the walker loop. -/
structure WalkState where
  nextSectionId : Nat
  nextLessonId : Nat
  currentSection : Option SectionRec
deriving Repr, DecidableEq

/-- The inner loop over the items of one lesson list: emits one lesson per
item, advancing the lesson counter. -/
def processItems (origin : String) (sec : SectionRec) :
    Nat → List LessonItem → List Lesson × Nat
  | nlid, [] => ([], nlid)
  | nlid, item :: rest =>
    let r := processItems origin sec (nlid + 1) rest
    (mkLesson origin nlid sec item :: r.1, r.2)

/-- The walker loop over the mixed header/list sequence. -/
def walkNodes (origin : String) : List WalkNode → WalkState → List Lesson × WalkState
  | [], st => ([], st)
  | WalkNode.header t d :: rest, st =>
    let sec : SectionRec :=
      { id := st.nextSectionId
        title := cleanText (t.getD "")
        duration := extractMinutes (d.getD "") }
    walkNodes origin rest
      { nextSectionId := st.nextSectionId + 1
        nextLessonId := st.nextLessonId
        currentSection := some sec }
  | WalkNode.list items :: rest, st =>
    let sec : SectionRec :=
      match st.currentSection with
      | some s => s
      | none => { id := st.nextSectionId, title := "", duration := "" }
    let nsid : Nat :=
      match st.currentSection with
      | some _ => st.nextSectionId
      | none => st.nextSectionId + 1
    let inner := processItems origin sec st.nextLessonId items
    let r := walkNodes origin rest
      { nextSectionId := nsid
        nextLessonId := inner.2
        currentSection := some sec }
    (inner.1 ++ r.1, r.2)

/-- The initial walker state: section counter seeded 1001, lesson counter 1,
no current section. -/
def initWalkState : WalkState :=
  { nextSectionId := 1001, nextLessonId := 1, currentSection := none }

/-- extractLessons: the full ordered lesson list of the traversal. -/
def extractLessons (origin : String) (nodes : List WalkNode) : List Lesson :=
  (walkNodes origin nodes initWalkState).1

/-! ### extractCoursePayload (content.js lines 420-449) -/

/-- Number.isFinite on the machine integers of the section counter: always
true in this embedding, kept because the source filters on it. -/
def numberIsFinite (_n : Nat) : Bool := true

structure ExportPayload where
  courseData : CourseData
  lessons : List Lesson
deriving Repr, DecidableEq

structure PayloadResult where
  slug : String
  payload : ExportPayload
deriving Repr, DecidableEq

/-- extractCoursePayload: slug precondition, title precondition, walker run,
derived counts, canonical URL. -/
def extractCoursePayload (origin : String) (pathname : String) (dom : PageDom) :
    Except String PayloadResult :=
  let slug := getCourseSlug pathname
  if slug = "" then Except.error "URL is not in /courses/<course-slug>/ format."
  else
    let courseData := extractCourseData dom
    if courseData.courseTitle = "" then
      Except.error "Course information could not be found on the page."
    else
      let lessons := extractLessons origin dom.lessonSequence
      let sectionIds := ((lessons.map Lesson.sectionId).filter numberIsFinite).dedup
      Except.ok
        { slug := slug
          payload :=
            { courseData :=
                { courseData with
                  sectionCount := sectionIds.length
                  lessonCount := lessons.length
                  courseUrl := buildCourseUrl origin slug }
              lessons := lessons } }

end CourseExtractor

namespace CoursePopup

open CourseExtractor

/-! ### popup.js: tab validation (lines 6, 44-78) -/

/-- The queried fields of a chrome tab. -/
structure TabInfo where
  id : Option Int
  url : Option String
deriving Repr, DecidableEq

/-- The anchored course-page URL test (the COURSE_PAGE_RE regex, applied
case-insensitively): the literal scheme-and-host-and-courses path followed by
at least one character that is not a slash, question mark or hash. -/
def isCoursePageUrl : Option String → Bool
  | none => false
  | some u =>
    let l := (asciiLower u).data
    let litChars := "https://frontendmasters.com/courses/".data
    startsWithCh litChars l &&
      (match l.drop litChars.length with
       | [] => false
       | c :: _ => !(c = '/' || c = '?' || c = '#'))

/-- assertValidCourseTab: requires a tab with a numeric id and a course-page
URL. -/
def assertValidCourseTab : Option TabInfo → Except String TabInfo
  | none => Except.error "Active tab not found."
  | some t =>
    if t.id.isNone then Except.error "Active tab not found."
    else if !isCoursePageUrl t.url then
      Except.error "A Frontend Masters course page must be open in the active tab."
    else Except.ok t

/-! ### popup.js: response parsing and the missing-receiver test (lines 86-99, 199-206) -/

/-- The extraction response message, over an abstract data type; a missing
error string is the empty string (falsy), and data may be absent. -/
structure ExtractResponse (α : Type) where
  ok : Bool
  error : String
  data : Option α
deriving Repr, DecidableEq

/-- The no-receiver signal test: the error message contains the literal
receiving-end text. -/
def isMissingReceiverError (message : String) : Bool :=
  containsSub "Receiving end does not exist".data message.data

/-- parseExtractResponse: an absent response or a non-ok response raises the
carried error string, defaulting when it is falsy. -/
def parseExtractResponse {α : Type} (response : Option (ExtractResponse α)) :
    Except String (Option α) :=
  match response with
  | none => Except.error "Could not read page data."
  | some r =>
    if r.ok then Except.ok r.data
    else Except.error (if r.error = "" then "Could not read page data." else r.error)

/-! ### popup.js: buildV2Payload (lines 214-233) -/

/-- A lesson row as seen by the popup after the message boundary: every field
may be missing. -/
structure PopupLesson where
  id : Option Int
  title : Option String
  duration : Option String
  lessonUrl : Option String
deriving Repr, DecidableEq

structure TaskItem where
  content : String
  description : String
deriving Repr, DecidableEq

structure V2Payload where
  tasks : List TaskItem
deriving Repr, DecidableEq

/-- Rendering of the id field: String(id) when defined, else empty. -/
def renderIdField (o : Option Int) : String :=
  match o with
  | some n => toString n
  | none => ""

/-- Rendering of a string field: the string when present (an empty present
string is falsy in the source and also renders empty), else empty. -/
def renderStrField (o : Option String) : String :=
  o.getD ""

/-- buildV2Payload: one task per lesson, a missing lessons array yields no
tasks. -/
def buildV2Payload (lessons : Option (List PopupLesson)) : V2Payload :=
  { tasks :=
      (lessons.getD []).map fun l =>
        { content := renderIdField l.id ++ ". " ++ renderStrField l.title ++ " []"
          description :=
            "- Duration: " ++ renderStrField l.duration ++ " min\n- Url: " ++
              renderStrField l.lessonUrl } }

/-! ### popup.js: the request orchestrator (lines 118-190, 242-269)

The external effects are modelled by an environment record giving each
effect's outcome; the orchestrator returns its result together with the trace
of effects it performed, in order. -/

/-- One observable effect of the orchestrator. -/
inductive OrchAction where
  | send
  | inject
  | reload
  | waitComplete
deriving Repr, DecidableEq

/-- Outcomes of the external effects for one invocation: the settled value of
each send, the scripting-capability test, the injection and reload outcomes,
and whether the reloaded tab reaches the complete status strictly within a
given bound in milliseconds. -/
structure OrchEnv (α : Type) where
  firstSend : Except String (Option (ExtractResponse α))
  scriptingAvailable : Bool
  injectOutcome : Except String Unit
  reloadOutcome : Except String Unit
  completeWithin : Nat → Bool
  secondSend : Except String (Option (ExtractResponse α))

/-- waitForTabComplete: resolves when the tab completes within the bound,
rejects with the manual-reload instruction on timeout. -/
def waitForTabComplete {α : Type} (env : OrchEnv α) (timeoutMs : Nat) :
    Except String Unit :=
  if env.completeWithin timeoutMs then Except.ok ()
  else Except.error "Tab reload timed out. Please reload the page manually and try again."

/-- refreshTabAndWait: reload, then wait up to 15000 ms for completion. -/
def refreshTabAndWait {α : Type} (env : OrchEnv α) :
    Except String Unit × List OrchAction :=
  match env.reloadOutcome with
  | Except.error m => (Except.error m, [OrchAction.reload])
  | Except.ok _ =>
    (waitForTabComplete env 15000, [OrchAction.reload, OrchAction.waitComplete])

/-- The single retry after recovery: same request path, no further recovery. -/
def retrySend {α : Type} (env : OrchEnv α) :
    Except String (Option α) × List OrchAction :=
  match env.secondSend with
  | Except.error m => (Except.error m, [OrchAction.send])
  | Except.ok r => (parseExtractResponse r, [OrchAction.send])

/-- The recovery path of the catch block: inject-and-retry when scripting is
available, else reload-wait-and-retry. -/
def recoverAndRetry {α : Type} (env : OrchEnv α) :
    Except String (Option α) × List OrchAction :=
  if env.scriptingAvailable then
    match env.injectOutcome with
    | Except.error m => (Except.error m, [OrchAction.inject])
    | Except.ok _ =>
      let r := retrySend env
      (r.1, OrchAction.inject :: r.2)
  else
    let rw := refreshTabAndWait env
    match rw.1 with
    | Except.error m => (Except.error m, rw.2)
    | Except.ok _ =>
      let r := retrySend env
      (r.1, rw.2 ++ r.2)

/-- requestCourseData: validate the tab, send, and on a caught error carrying
the no-receiver signal recover once and retry once; every other caught error
propagates. -/
def requestCourseData {α : Type} (tab : Option TabInfo) (env : OrchEnv α) :
    Except String (Option α) × List OrchAction :=
  match assertValidCourseTab tab with
  | Except.error e => (Except.error e, [])
  | Except.ok _ =>
    match env.firstSend with
    | Except.error m =>
      if isMissingReceiverError m then
        let r := recoverAndRetry env
        (r.1, OrchAction.send :: r.2)
      else (Except.error m, [OrchAction.send])
    | Except.ok resp =>
      match parseExtractResponse resp with
      | Except.ok d => (Except.ok d, [OrchAction.send])
      | Except.error e =>
        if isMissingReceiverError e then
          let r := recoverAndRetry env
          (r.1, OrchAction.send :: r.2)
        else (Except.error e, [OrchAction.send])

end CoursePopup

namespace SpecClaims

open CourseExtractor CoursePopup

/-! ## Specification-side definitions

These definitions follow the wording of the specification and of the claims
under scrutiny (not the source); they exist to be compared with the source
embeddings above. -/

/-- Split on the first occurrence of a separator, as the claim on time ranges
words it: none when the separator does not occur. -/
def splitFirstOn (sep : Char) : List Char → Option (List Char × List Char)
  | [] => none
  | c :: cs =>
    if c = sep then some ([], cs)
    else
      match splitFirstOn sep cs with
      | none => none
      | some r => some (c :: r.1, r.2)

/-- The time-range claim as stated: split the cleaned text on the first dash
into exactly two non-empty trimmed parts (any other shape yields the empty
string), convert both via timestampToSeconds, empty if either is invalid or
the end is before the start, else the rounded minute difference. -/
def durationClaimC4 (value : String) : String :=
  let range := cleanText value
  match splitFirstOn '-' range.data with
  | none => ""
  | some pr =>
    let p0 := cleanText ⟨pr.1⟩
    let p1 := cleanText ⟨pr.2⟩
    if p0 = "" || p1 = "" then ""
    else
      match timestampToSeconds p0, timestampToSeconds p1 with
      | some s, some e =>
        if JsNum.blt e s then "" else toString (jsRound (JsNum.divSixty (JsNum.sub e s)))
      | _, _ => ""

/-- A plain integer in the sense of the timestamp claim: an optional sign
followed by at least one digit. -/
def plainIntSeg (s : String) : Bool :=
  let core : List Char :=
    match s.data with
    | '-' :: r => r
    | '+' :: r => r
    | r => r
  !core.isEmpty && core.all isAsciiDigit

/-- The timestamp claim as stated: the sentinel exactly for zero segments,
more than three segments, or a segment that is not a plain integer; otherwise
the positional weighted sum. -/
def timeToSecondsClaimC5 (value : String) : Option JsNum :=
  let segs := (splitOnCh ':' (cleanText value).data).map (fun p => (⟨p⟩ : String))
  if segs.isEmpty || 3 < segs.length || segs.any (fun p => !plainIntSeg p) then none
  else
    match segs.map jsNumber with
    | [h, m, s] =>
      some (JsNum.add (JsNum.add (JsNum.scale 3600 (h.getD jsZero))
        (JsNum.scale 60 (m.getD jsZero))) (s.getD jsZero))
    | [m, s] => some (JsNum.add (JsNum.scale 60 (m.getD jsZero)) (s.getD jsZero))
    | [s] => some (s.getD jsZero)
    | _ => none

/-- The duration-text claim, as the specification words it: the labeled
hours/minutes branch when either labeled group matches, else the short min
branch, else the first bare integer, else empty. -/
def extractMinutesSpec (value : String) : String :=
  let text := asciiLower (cleanText value)
  if text = "" then ""
  else
    let l := text.data
    let hours := findNumBefore hourTail l
    let minutes := findNumBefore minuteTail l
    if hours.isSome || minutes.isSome then
      toString (hours.getD 0 * 60 + minutes.getD 0)
    else
      match findNumBefore minShortTail l with
      | some n => toString n
      | none =>
        match findNumBefore (fun _ => true) l with
        | some n => toString n
        | none => ""

/-- The fixed 12-entry month table, as the specification presents it. -/
def monthTable : List (String × String) :=
  [("january", "01"), ("february", "02"), ("march", "03"), ("april", "04"),
   ("may", "05"), ("june", "06"), ("july", "07"), ("august", "08"),
   ("september", "09"), ("october", "10"), ("november", "11"), ("december", "12")]

/-- Association lookup in a month table. -/
def tableLookup (key : String) : List (String × String) → Option String
  | [] => none
  | (k, v) :: rest => if key = k then some v else tableLookup key rest

/-- The published-date claim, as the specification words it: pass a
YYYY-MM-DD shape through, else map a long-month date through the fixed table
with the day zero-padded, else empty. -/
def normalizePublishedDateSpec (value : String) : String :=
  let text := cleanText value
  if text = "" then ""
  else if ymdShape text.data then text
  else
    match parseLongMonth text.data with
    | some (monName, day, year) =>
      match tableLookup (asciiLower monName) monthTable with
      | some m => year ++ "-" ++ m ++ "-" ++ padDay day
      | none => ""
    | none => ""

/-- One task of the task-list projection, as the specification words it, with
each missing field rendered as the empty string. -/
def taskForSpec (l : PopupLesson) : TaskItem :=
  { content :=
      (match l.id with | some n => toString n | none => "") ++ ". " ++
        (match l.title with | some t => t | none => "") ++ " []"
    description :=
      "- Duration: " ++ (match l.duration with | some d => d | none => "") ++
        " min\n- Url: " ++ (match l.lessonUrl with | some u => u | none => "") }

/-- The number of section-header nodes in a traversal sequence. -/
def countHeaders : List WalkNode → Nat
  | [] => 0
  | WalkNode.header _ _ :: rest => countHeaders rest + 1
  | WalkNode.list _ :: rest => countHeaders rest

/-- Whether a synthetic section is created for the traversal: exactly when a
lesson-list node occurs before any header, that is when the sequence starts
with a list node (as one section counter increment). -/
def synthBit : List WalkNode → Nat
  | WalkNode.list _ :: _ => 1
  | _ => 0

/-- The number of lesson items inside the initial run of pre-header
lesson-list nodes. -/
def preItemCount : List WalkNode → Nat
  | WalkNode.list items :: rest => items.length + preItemCount rest
  | _ => 0

/-- The slug of the precondition claim as stated: the first non-empty path
segment after a literal courses segment. -/
def claimSlugC6 (pathname : String) : String :=
  let segs := ((splitOnCh '/' pathname.data).map (fun p => (⟨p⟩ : String))).filter
    (fun s => s ≠ "")
  match segs.dropWhile (fun s => s ≠ "courses") with
  | _ :: s :: _ => s
  | _ => ""

end SpecClaims

namespace Samples

open CourseExtractor CoursePopup

/-! ## Concrete sample inputs used by witnesses and counterexamples -/

/-- A lesson item with no queryable sub-elements. -/
def bareItem : LessonItem :=
  { titleAnchor := none, descriptionText := none
    timestampAnchor := none, thumbnailAnchor := none }

/-- A page with a title, two section headers (the first with a heading, both
without lessons of their own) and one lesson list holding a single bare item. -/
def pageDom : PageDom :=
  { headerTitle := some "T"
    h3s := []
    contentParagraph := none
    tutorText := none
    headerMeta := none
    durationLabels := []
    lessonSequence :=
      [WalkNode.header (some "A") none, WalkNode.header none none,
        WalkNode.list [bareItem]] }

/-- The payload the extraction produces on pageDom at the react course path:
two section IDs were consumed but only one is referenced, so the section
count is 1. -/
def pageRes : PayloadResult :=
  { slug := "react"
    payload :=
      { courseData :=
          { courseTitle := "T", courseDescription := "", tutor := ""
            totalDuration := "", publishedDate := "", sectionCount := 1
            lessonCount := 1
            courseUrl := "https://frontendmasters.com/courses/react/" }
        lessons :=
          [{ id := 1, title := "", description := "", duration := ""
             timeRange := "", lessonUrl := "", sectionId := 1002
             sectionTitle := "", sectionDuration := "" }] } }

/-- A walker input with a pre-header lesson list (two items), a header, a
list under it (one item), and a trailing empty header. -/
def walkSeq : List WalkNode :=
  [WalkNode.list [bareItem, bareItem],
    WalkNode.header (some "A") (some "5 mins"),
    WalkNode.list [bareItem],
    WalkNode.header none none]

/-- The first lesson the walker emits on walkSeq: synthetic section 1001. -/
def preLesson : Lesson :=
  { id := 1, title := "", description := "", duration := "", timeRange := ""
    lessonUrl := "", sectionId := 1001, sectionTitle := "", sectionDuration := "" }

/-- The second lesson the walker emits on walkSeq: same synthetic section. -/
def preLesson2 : Lesson :=
  { id := 2, title := "", description := "", duration := "", timeRange := ""
    lessonUrl := "", sectionId := 1001, sectionTitle := "", sectionDuration := "" }

/-- A valid course tab. -/
def okTab : TabInfo :=
  { id := some 1, url := some "https://frontendmasters.com/courses/react/" }

/-- An environment whose first send resolves to a structured failure whose
error string happens to contain the no-receiver signal; scripting is
available and the retry succeeds with the datum 42. -/
def sneakyEnv : OrchEnv Nat :=
  { firstSend :=
      Except.ok (some { ok := false, error := "Receiving end does not exist", data := none })
    scriptingAvailable := true
    injectOutcome := Except.ok ()
    reloadOutcome := Except.ok ()
    completeWithin := fun _ => true
    secondSend := Except.ok (some { ok := true, error := "", data := some 42 }) }

/-- An environment whose first send rejects with the genuine no-receiver
message, with no scripting capability and a reload that never completes. -/
def timeoutEnv : OrchEnv Nat :=
  { firstSend :=
      Except.error "Could not establish connection. Receiving end does not exist."
    scriptingAvailable := false
    injectOutcome := Except.ok ()
    reloadOutcome := Except.ok ()
    completeWithin := fun _ => false
    secondSend := Except.ok none }

/-- An environment whose first send resolves to a structured failure carrying
the no-receiver signal, with no scripting capability and a reload that never
completes. -/
def sneakyTimeoutEnv : OrchEnv Nat :=
  { firstSend :=
      Except.ok (some { ok := false, error := "Receiving end does not exist", data := none })
    scriptingAvailable := false
    injectOutcome := Except.ok ()
    reloadOutcome := Except.ok ()
    completeWithin := fun _ => false
    secondSend := Except.ok none }

end Samples

namespace CourseExtractor

/-! ## Supporting lemmas -/

/-- The source month map coincides with lookup in the 12-entry association
table of the specification. -/
theorem monthMap_eq_lookup (s : String) :
    monthMap s = SpecClaims.tableLookup s SpecClaims.monthTable := by
  simp only [monthMap, SpecClaims.monthTable, SpecClaims.tableLookup]

/-- A character split never yields an empty part list (as in JS, where
splitting the empty string yields one empty part). -/
theorem splitOnCh_ne_nil (sep : Char) (l : List Char) : splitOnCh sep l ≠ [] := by
  induction l with
  | nil => simp [splitOnCh]
  | cons c cs ih =>
    simp only [splitOnCh]
    by_cases h : c = sep
    · simp [h]
    · simp only [if_neg h]
      rcases hr : splitOnCh sep cs with _ | ⟨x, xs⟩
      · exact absurd hr ih
      · simp

/-- Every number produced by the Number() embedding has a positive
denominator. -/
theorem jsNumber_den_pos (s : String) (q : JsNum) (h : jsNumber s = some q) :
    0 < q.den := by
  simp only [jsNumber] at h
  split at h
  · cases h
    exact Nat.one_pos
  · split at h
    · split at h
      · exact absurd h (by simp)
      · cases h
        exact Nat.one_pos
    · split at h
      · cases h
        exact pow_pos (by norm_num) _
      · exact absurd h (by simp)
    · exact absurd h (by simp)

/-- A defaulted Number() result has a positive denominator. -/
theorem getD_jsNumber_den_pos (p : List Char) :
    0 < ((jsNumber ⟨p⟩).getD jsZero).den := by
  cases hj : jsNumber ⟨p⟩
  · exact Nat.one_pos
  · simpa using jsNumber_den_pos ⟨p⟩ _ hj

/-! ### Walker invariants -/

/-- The item loop advances the lesson counter by the item count, emits one
lesson per item whose ids are the consecutive run from the initial counter,
and stamps every lesson with the snapshot of the given section. -/
theorem processItems_spec (origin : String) (sec : SectionRec) :
    ∀ (items : List LessonItem) (nlid : Nat),
      (processItems origin sec nlid items).2 = nlid + items.length ∧
      (processItems origin sec nlid items).1.length = items.length ∧
      (processItems origin sec nlid items).1.map Lesson.id =
        List.range' nlid items.length ∧
      ∀ l ∈ (processItems origin sec nlid items).1,
        l.sectionId = sec.id ∧ l.sectionTitle = sec.title ∧
          l.sectionDuration = sec.duration := by
  intro items
  induction items with
  | nil =>
    intro nlid
    simp [processItems]
  | cons it rest ih =>
    intro nlid
    obtain ⟨h2, hlen, hmap, hall⟩ := ih (nlid + 1)
    refine ⟨?_, ?_, ?_, ?_⟩
    · simp only [processItems, h2, List.length_cons]
      omega
    · simp [processItems, hlen]
    · simp only [processItems, List.map_cons, hmap, List.length_cons]
      rw [List.range'_succ]
      rfl
    · intro l hl
      simp only [processItems, List.mem_cons] at hl
      rcases hl with rfl | hl
      · exact ⟨rfl, rfl, rfl⟩
      · exact hall l hl

/-- The walker distributes over concatenation of the node sequence, threading
the state. -/
theorem walkNodes_append (origin : String) :
    ∀ (xs ys : List WalkNode) (st : WalkState),
      walkNodes origin (xs ++ ys) st =
        ((walkNodes origin xs st).1 ++
            (walkNodes origin ys (walkNodes origin xs st).2).1,
          (walkNodes origin ys (walkNodes origin xs st).2).2) := by
  intro xs
  induction xs with
  | nil =>
    intro ys st
    simp [walkNodes]
  | cons n rest ih =>
    intro ys st
    cases n with
    | header t d => simp [walkNodes, ih]
    | list items => simp [walkNodes, ih, List.append_assoc]

/-- The section counter after a traversal: one increment per header, plus one
for the synthetic section when the state has no current section and the
sequence starts with a list node. -/
theorem walkNodes_sectionCounter (origin : String) :
    ∀ (nodes : List WalkNode) (st : WalkState),
      ((walkNodes origin nodes st).2).nextSectionId =
        st.nextSectionId + SpecClaims.countHeaders nodes +
          (if st.currentSection = none then SpecClaims.synthBit nodes else 0) := by
  intro nodes
  induction nodes with
  | nil =>
    intro st
    simp [walkNodes, SpecClaims.countHeaders, SpecClaims.synthBit]
  | cons n rest ih =>
    intro st
    cases n with
    | header t d =>
      simp only [walkNodes]
      rw [ih]
      have hsb : SpecClaims.synthBit (WalkNode.header t d :: rest) = 0 := rfl
      have hch : SpecClaims.countHeaders (WalkNode.header t d :: rest) =
          SpecClaims.countHeaders rest + 1 := rfl
      rw [hsb, hch]
      simp only [ite_self]
      simp
      omega
    | list items =>
      have hch : SpecClaims.countHeaders (WalkNode.list items :: rest) =
          SpecClaims.countHeaders rest := rfl
      have hsb : SpecClaims.synthBit (WalkNode.list items :: rest) = 1 := rfl
      cases hcur : st.currentSection with
      | none =>
        simp only [walkNodes, hcur]
        rw [ih, hch, hsb]
        simp [hcur]
        omega
      | some sec =>
        simp only [walkNodes, hcur]
        rw [ih, hch, hsb]
        simp [hcur]

/-- The lesson counter advances by the number of emitted lessons, whose ids
are the consecutive run from the initial counter. -/
theorem walkNodes_lessonIds (origin : String) :
    ∀ (nodes : List WalkNode) (st : WalkState),
      ((walkNodes origin nodes st).2).nextLessonId =
        st.nextLessonId + (walkNodes origin nodes st).1.length ∧
      (walkNodes origin nodes st).1.map Lesson.id =
        List.range' st.nextLessonId (walkNodes origin nodes st).1.length := by
  intro nodes
  induction nodes with
  | nil =>
    intro st
    simp [walkNodes]
  | cons n rest ih =>
    intro st
    cases n with
    | header t d =>
      obtain ⟨h1, h2⟩ :=
        ih { nextSectionId := st.nextSectionId + 1, nextLessonId := st.nextLessonId
             currentSection :=
               some { id := st.nextSectionId, title := cleanText (t.getD "")
                      duration := extractMinutes (d.getD "") } }
      exact ⟨by simpa [walkNodes] using h1, by simpa [walkNodes] using h2⟩
    | list items =>
      cases hcur : st.currentSection with
      | none =>
        obtain ⟨p2, plen, pmap, _⟩ :=
          processItems_spec origin
            { id := st.nextSectionId, title := "", duration := "" } items
            st.nextLessonId
        obtain ⟨h1, h2⟩ :=
          ih { nextSectionId := st.nextSectionId + 1
               nextLessonId :=
                 (processItems origin
                   { id := st.nextSectionId, title := "", duration := "" }
                   st.nextLessonId items).2
               currentSection :=
                 some { id := st.nextSectionId, title := "", duration := "" } }
        constructor
        · simp only [walkNodes, hcur]
          simp only [walkNodes, hcur] at h1
          rw [h1, p2]
          simp only [List.length_append, plen]
          omega
        · simp only [walkNodes, hcur, List.map_append, pmap]
          simp only [walkNodes, hcur] at h2
          rw [h2, p2, List.length_append, plen]
          rw [Nat.add_comm items.length _, ← List.range'_append_1]
      | some sec =>
        obtain ⟨p2, plen, pmap, _⟩ := processItems_spec origin sec items st.nextLessonId
        obtain ⟨h1, h2⟩ :=
          ih { nextSectionId := st.nextSectionId
               nextLessonId := (processItems origin sec st.nextLessonId items).2
               currentSection := some sec }
        constructor
        · simp only [walkNodes, hcur]
          simp only [walkNodes, hcur] at h1
          rw [h1, p2]
          simp only [List.length_append, plen]
          omega
        · simp only [walkNodes, hcur, List.map_append, pmap]
          simp only [walkNodes, hcur] at h2
          rw [h2, p2, List.length_append, plen]
          rw [Nat.add_comm items.length _, ← List.range'_append_1]

/-- With a current section present, every lesson of the initial run of list
nodes carries that section's snapshot (the section is reused across the
run). -/
theorem walkNodes_run_sections (origin : String) :
    ∀ (nodes : List WalkNode) (st : WalkState) (sec : SectionRec),
      st.currentSection = some sec →
      ∀ l ∈ (walkNodes origin nodes st).1.take (SpecClaims.preItemCount nodes),
        l.sectionId = sec.id ∧ l.sectionTitle = sec.title ∧
          l.sectionDuration = sec.duration := by
  intro nodes
  induction nodes with
  | nil =>
    intro st sec hcur l hl
    simp [walkNodes, SpecClaims.preItemCount] at hl
  | cons n rest ih =>
    intro st sec hcur l hl
    cases n with
    | header t d =>
      have hpi : SpecClaims.preItemCount (WalkNode.header t d :: rest) = 0 := rfl
      rw [hpi] at hl
      simp at hl
    | list items =>
      have hpi : SpecClaims.preItemCount (WalkNode.list items :: rest) =
          items.length + SpecClaims.preItemCount rest := rfl
      obtain ⟨p2, plen, pmap, pall⟩ := processItems_spec origin sec items st.nextLessonId
      simp only [walkNodes, hcur, hpi] at hl
      rw [← plen, List.take_append] at hl
      rcases List.mem_append.mp hl with hmem | hmem
      · exact pall l hmem
      · exact ih _ sec rfl l hmem

/-- With no current section, every lesson of the initial run of list nodes
carries the synthetic section: the pending section ID and empty title and
duration. -/
theorem walkNodes_preHeader_synthetic (origin : String) (nodes : List WalkNode)
    (st : WalkState) (hcur : st.currentSection = none) :
    ∀ l ∈ (walkNodes origin nodes st).1.take (SpecClaims.preItemCount nodes),
      l.sectionId = st.nextSectionId ∧ l.sectionTitle = "" ∧
        l.sectionDuration = "" := by
  intro l hl
  cases nodes with
  | nil => simp [walkNodes] at hl
  | cons n rest =>
    cases n with
    | header t d =>
      have hpi : SpecClaims.preItemCount (WalkNode.header t d :: rest) = 0 := rfl
      rw [hpi] at hl
      simp at hl
    | list items =>
      have hpi : SpecClaims.preItemCount (WalkNode.list items :: rest) =
          items.length + SpecClaims.preItemCount rest := rfl
      obtain ⟨p2, plen, pmap, pall⟩ :=
        processItems_spec origin { id := st.nextSectionId, title := "", duration := "" }
          items st.nextLessonId
      simp only [walkNodes, hcur, hpi] at hl
      rw [← plen, List.take_append] at hl
      rcases List.mem_append.mp hl with hmem | hmem
      · exact pall l hmem
      · exact walkNodes_run_sections origin rest _
          { id := st.nextSectionId, title := "", duration := "" } rfl l hmem

/-- Every emitted lesson's section ID is bounded below by any bound under
both the section counter and the current section's ID. -/
theorem walkNodes_sectionId_lb (origin : String) :
    ∀ (nodes : List WalkNode) (st : WalkState) (lo : Nat),
      lo ≤ st.nextSectionId →
      (∀ sec, st.currentSection = some sec → lo ≤ sec.id) →
      ∀ l ∈ (walkNodes origin nodes st).1, lo ≤ l.sectionId := by
  intro nodes
  induction nodes with
  | nil =>
    intro st lo _ _ l hl
    simp [walkNodes] at hl
  | cons n rest ih =>
    intro st lo hlo hcur l hl
    cases n with
    | header t d =>
      simp only [walkNodes] at hl
      refine ih _ lo ?_ ?_ l hl
      · simp only []
        omega
      · intro sec' hsec'
        change some { id := st.nextSectionId, title := cleanText (t.getD "")
                      duration := extractMinutes (d.getD "") } = some sec' at hsec'
        cases hsec'
        exact hlo
    | list items =>
      cases hcur2 : st.currentSection with
      | none =>
        obtain ⟨_, _, _, pall⟩ :=
          processItems_spec origin { id := st.nextSectionId, title := "", duration := "" }
            items st.nextLessonId
        simp only [walkNodes, hcur2] at hl
        rcases List.mem_append.mp hl with hmem | hmem
        · have h := (pall l hmem).1
          rw [h]
          exact hlo
        · refine ih _ lo ?_ ?_ l hmem
          · simp only []
            omega
          · intro sec' hsec'
            change some { id := st.nextSectionId, title := "", duration := "" } =
              some sec' at hsec'
            cases hsec'
            exact hlo
      | some sec =>
        have hsec := hcur sec hcur2
        obtain ⟨_, _, _, pall⟩ := processItems_spec origin sec items st.nextLessonId
        simp only [walkNodes, hcur2] at hl
        rcases List.mem_append.mp hl with hmem | hmem
        · have h := (pall l hmem).1
          rw [h]
          exact hsec
        · refine ih _ lo ?_ ?_ l hmem
          · exact hlo
          · intro sec' hsec'
            change some sec = some sec' at hsec'
            cases hsec'
            exact hsec

/-- Every emitted lesson's section ID is strictly below the final section
counter, provided the current section is below the counter. -/
theorem walkNodes_sectionId_ub (origin : String) :
    ∀ (nodes : List WalkNode) (st : WalkState),
      (∀ sec, st.currentSection = some sec → sec.id < st.nextSectionId) →
      ∀ l ∈ (walkNodes origin nodes st).1,
        l.sectionId < ((walkNodes origin nodes st).2).nextSectionId := by
  intro nodes
  induction nodes with
  | nil =>
    intro st _ l hl
    simp [walkNodes] at hl
  | cons n rest ih =>
    intro st hcur l hl
    cases n with
    | header t d =>
      simp only [walkNodes] at hl ⊢
      refine ih _ ?_ l hl
      intro sec' hsec'
      change some { id := st.nextSectionId, title := cleanText (t.getD "")
                    duration := extractMinutes (d.getD "") } = some sec' at hsec'
      cases hsec'
      simp only []
      omega
    | list items =>
      cases hcur2 : st.currentSection with
      | none =>
        obtain ⟨_, _, _, pall⟩ :=
          processItems_spec origin { id := st.nextSectionId, title := "", duration := "" }
            items st.nextLessonId
        simp only [walkNodes, hcur2] at hl ⊢
        have hmono := walkNodes_sectionCounter origin rest
          { nextSectionId := st.nextSectionId + 1
            nextLessonId :=
              (processItems origin { id := st.nextSectionId, title := "", duration := "" }
                st.nextLessonId items).2
            currentSection := some { id := st.nextSectionId, title := "", duration := "" } }
        rcases List.mem_append.mp hl with hmem | hmem
        · have h := (pall l hmem).1
          rw [h, hmono]
          simp only []
          simp
          omega
        · refine ih _ ?_ l hmem
          intro sec' hsec'
          change some { id := st.nextSectionId, title := "", duration := "" } =
            some sec' at hsec'
          cases hsec'
          simp only []
          omega
      | some sec =>
        have hsec := hcur sec hcur2
        obtain ⟨_, _, _, pall⟩ := processItems_spec origin sec items st.nextLessonId
        simp only [walkNodes, hcur2] at hl ⊢
        have hmono := walkNodes_sectionCounter origin rest
          { nextSectionId := st.nextSectionId
            nextLessonId := (processItems origin sec st.nextLessonId items).2
            currentSection := some sec }
        rcases List.mem_append.mp hl with hmem | hmem
        · have h := (pall l hmem).1
          rw [h, hmono]
          simp only []
          simp
          omega
        · refine ih _ ?_ l hmem
          intro sec' hsec'
          change some sec = some sec' at hsec'
          cases hsec'
          exact hsec

/-- The section snapshots of the emitted lessons: every lesson either
references a section at or beyond the entry counter or carries exactly the
entry current section, and section IDs are pairwise non-decreasing with equal
IDs implying equal snapshots. -/
theorem walkNodes_sections_pairwise (origin : String) :
    ∀ (nodes : List WalkNode) (st : WalkState),
      (∀ sec, st.currentSection = some sec → sec.id < st.nextSectionId) →
      (∀ l ∈ (walkNodes origin nodes st).1,
        st.nextSectionId ≤ l.sectionId ∨
          st.currentSection =
            some { id := l.sectionId, title := l.sectionTitle
                   duration := l.sectionDuration }) ∧
      (walkNodes origin nodes st).1.Pairwise
        (fun l1 l2 =>
          l1.sectionId ≤ l2.sectionId ∧
            (l1.sectionId = l2.sectionId →
              l1.sectionTitle = l2.sectionTitle ∧
                l1.sectionDuration = l2.sectionDuration)) := by
  intro nodes
  induction nodes with
  | nil =>
    intro st _
    simp [walkNodes]
  | cons n rest ih =>
    intro st hcur
    cases n with
    | header t d =>
      obtain ⟨ihA, ihB⟩ := ih
        { nextSectionId := st.nextSectionId + 1, nextLessonId := st.nextLessonId
          currentSection :=
            some { id := st.nextSectionId, title := cleanText (t.getD "")
                   duration := extractMinutes (d.getD "") } }
        (by
          intro sec' hsec'
          change some { id := st.nextSectionId, title := cleanText (t.getD "")
                        duration := extractMinutes (d.getD "") } = some sec' at hsec'
          cases hsec'
          simp only []
          omega)
      constructor
      · intro l hl
        simp only [walkNodes] at hl
        rcases ihA l hl with h | h
        · left
          simp only [] at h
          omega
        · change (some { id := st.nextSectionId, title := cleanText (t.getD "")
                         duration := extractMinutes (d.getD "") } : Option SectionRec) =
            some { id := l.sectionId, title := l.sectionTitle
                   duration := l.sectionDuration } at h
          left
          have hid : st.nextSectionId = l.sectionId :=
            congrArg SectionRec.id (Option.some.inj h)
          omega
      · simpa only [walkNodes] using ihB
    | list items =>
      cases hcur2 : st.currentSection with
      | none =>
        obtain ⟨_, plen, _, pall⟩ :=
          processItems_spec origin { id := st.nextSectionId, title := "", duration := "" }
            items st.nextLessonId
        obtain ⟨ihA, ihB⟩ := ih
          { nextSectionId := st.nextSectionId + 1
            nextLessonId :=
              (processItems origin { id := st.nextSectionId, title := "", duration := "" }
                st.nextLessonId items).2
            currentSection := some { id := st.nextSectionId, title := "", duration := "" } }
          (by
            intro sec' hsec'
            change some { id := st.nextSectionId, title := "", duration := "" } =
              some sec' at hsec'
            cases hsec'
            simp only []
            omega)
        constructor
        · intro l hl
          simp only [walkNodes, hcur2] at hl
          rcases List.mem_append.mp hl with hmem | hmem
          · obtain ⟨h1, _, _⟩ := pall l hmem
            left
            simp only [] at h1
            omega
          · rcases ihA l hmem with h | h
            · left
              simp only [] at h
              omega
            · change (some { id := st.nextSectionId, title := "", duration := "" } :
                  Option SectionRec) =
                some { id := l.sectionId, title := l.sectionTitle
                       duration := l.sectionDuration } at h
              left
              have hid : st.nextSectionId = l.sectionId :=
                congrArg SectionRec.id (Option.some.inj h)
              omega
        · simp only [walkNodes, hcur2]
          rw [List.pairwise_append]
          refine ⟨?_, ihB, ?_⟩
          · refine List.pairwise_of_forall_mem_list ?_
            intro a ha b hb
            obtain ⟨ha1, ha2, ha3⟩ := pall a ha
            obtain ⟨hb1, hb2, hb3⟩ := pall b hb
            refine ⟨by rw [ha1, hb1], fun _ => ⟨by rw [ha2, hb2], by rw [ha3, hb3]⟩⟩
          · intro a ha b hb
            obtain ⟨ha1, ha2, ha3⟩ := pall a ha
            rcases ihA b hb with h | h
            · simp only [] at h ha1
              refine ⟨by omega, fun heq => ?_⟩
              omega
            · change (some { id := st.nextSectionId, title := "", duration := "" } :
                  Option SectionRec) =
                some { id := b.sectionId, title := b.sectionTitle
                       duration := b.sectionDuration } at h
              have hb' := Option.some.inj h
              have hbid : st.nextSectionId = b.sectionId := congrArg SectionRec.id hb'
              have hbt : "" = b.sectionTitle := congrArg SectionRec.title hb'
              have hbd : "" = b.sectionDuration := congrArg SectionRec.duration hb'
              simp only [] at ha1
              refine ⟨by omega, fun _ => ⟨?_, ?_⟩⟩
              · rw [ha2, hbt]
              · rw [ha3, hbd]
      | some sec =>
        have hsec := hcur sec hcur2
        obtain ⟨_, plen, _, pall⟩ := processItems_spec origin sec items st.nextLessonId
        obtain ⟨ihA, ihB⟩ := ih
          { nextSectionId := st.nextSectionId
            nextLessonId := (processItems origin sec st.nextLessonId items).2
            currentSection := some sec }
          (by
            intro sec' hsec'
            change some sec = some sec' at hsec'
            cases hsec'
            exact hsec)
        constructor
        · intro l hl
          simp only [walkNodes, hcur2] at hl
          rcases List.mem_append.mp hl with hmem | hmem
          · obtain ⟨h1, h2, h3⟩ := pall l hmem
            right
            rw [h1, h2, h3]
          · rcases ihA l hmem with h | h
            · left
              exact h
            · right
              exact h
        · simp only [walkNodes, hcur2]
          rw [List.pairwise_append]
          refine ⟨?_, ihB, ?_⟩
          · refine List.pairwise_of_forall_mem_list ?_
            intro a ha b hb
            obtain ⟨ha1, ha2, ha3⟩ := pall a ha
            obtain ⟨hb1, hb2, hb3⟩ := pall b hb
            refine ⟨by rw [ha1, hb1], fun _ => ⟨by rw [ha2, hb2], by rw [ha3, hb3]⟩⟩
          · intro a ha b hb
            obtain ⟨ha1, ha2, ha3⟩ := pall a ha
            rcases ihA b hb with h | h
            · simp only [] at h
              refine ⟨by omega, fun heq => ?_⟩
              omega
            · have hb' := Option.some.inj h
              have hbid : sec.id = b.sectionId := congrArg SectionRec.id hb'
              have hbt : sec.title = b.sectionTitle := congrArg SectionRec.title hb'
              have hbd : sec.duration = b.sectionDuration := congrArg SectionRec.duration hb'
              refine ⟨by omega, fun _ => ⟨?_, ?_⟩⟩
              · rw [ha2, ← hbt]
              · rw [ha3, ← hbd]

end CourseExtractor

namespace CoursePopup

/-- The retry emits exactly one send effect, whatever its outcome. -/
theorem retrySend_trace {α : Type} (env : OrchEnv α) :
    (retrySend env).2 = [OrchAction.send] := by
  unfold retrySend
  cases env.secondSend <;> simp

/-- The recovery path emits at most one send and exactly one recovery effect
(an injection or a reload), in every environment. -/
theorem recoverAndRetry_counts {α : Type} (env : OrchEnv α) :
    (recoverAndRetry env).2.count OrchAction.send ≤ 1 ∧
    (recoverAndRetry env).2.count OrchAction.inject +
      (recoverAndRetry env).2.count OrchAction.reload ≤ 1 := by
  unfold recoverAndRetry refreshTabAndWait waitForTabComplete
  cases hs : env.scriptingAvailable
  · cases hr : env.reloadOutcome
    · simp [List.count_cons, List.count_nil]
    · cases hw : env.completeWithin 15000 <;>
        simp [List.count_cons, List.count_nil, retrySend_trace]
  · cases hi : env.injectOutcome <;>
      simp [List.count_cons, List.count_nil, retrySend_trace]

end CoursePopup

namespace Claims

open CourseExtractor CoursePopup SpecClaims

/-- C7: parseDurationText (extractMinutes) lower-cases the cleaned text and
tries in order the labeled hours/minutes branch (absent group defaulting to
0), the short min branch, and the first bare integer, yielding the empty
string when none match; the result is always a string-encoded non-negative
integer or empty; the three cited examples hold. -/
theorem c7_parse_duration_text (value : String) :
    extractMinutes value = extractMinutesSpec value ∧
    (extractMinutes value = "" ∨ ∃ n : Nat, extractMinutes value = toString n) ∧
    extractMinutes "2 hours 15 minutes" = "135" ∧
    extractMinutes "45 mins" = "45" ∧
    extractMinutes "" = "" := by
  refine ⟨?_, ?_, rfl, rfl, rfl⟩
  · unfold extractMinutes extractMinutesSpec
    by_cases h : asciiLower (cleanText value) = ""
    · simp [h]
    · simp only [if_neg h]
      cases hh : findNumBefore hourTail (asciiLower (cleanText value)).data <;>
        cases hm : findNumBefore minuteTail (asciiLower (cleanText value)).data <;>
          simp
  · unfold extractMinutes
    by_cases h : asciiLower (cleanText value) = ""
    · simp [h]
    · simp only [if_neg h]
      cases hh : findNumBefore hourTail (asciiLower (cleanText value)).data <;>
        cases hm : findNumBefore minuteTail (asciiLower (cleanText value)).data
      · cases hs : findNumBefore minShortTail (asciiLower (cleanText value)).data
        · cases hf : findNumBefore (fun _ => true) (asciiLower (cleanText value)).data
          · exact Or.inl rfl
          · exact Or.inr ⟨_, rfl⟩
        · exact Or.inr ⟨_, rfl⟩
      · exact Or.inr ⟨_, rfl⟩
      · exact Or.inr ⟨_, rfl⟩
      · exact Or.inr ⟨_, rfl⟩

/-- C8: normalizePublishedDate never throws (it is a total function) and
behaves as specified: a YYYY-MM-DD shape passes through cleaned, a long-month
date with a full English month name maps through the fixed 12-entry table
with the day zero-padded, and any other shape yields the empty string; the
three cited examples hold. -/
theorem c8_normalize_published_date (value : String) :
    normalizePublishedDate value = normalizePublishedDateSpec value ∧
    normalizePublishedDate "March 3, 2022" = "2022-03-03" ∧
    normalizePublishedDate "2022-03-03" = "2022-03-03" ∧
    normalizePublishedDate "not a date" = "" := by
  refine ⟨?_, rfl, rfl, rfl⟩
  unfold normalizePublishedDate normalizePublishedDateSpec
  simp only [monthMap_eq_lookup]

/-- C9: buildV2Payload is a pure projection producing exactly one task per
lesson, in lesson-list order, with the specified content and description
formats, and missing fields rendered as empty strings. -/
theorem c9_build_v2_payload (payload : Option (List PopupLesson)) :
    buildV2Payload payload = { tasks := (payload.getD []).map taskForSpec } ∧
    (buildV2Payload payload).tasks.length = (payload.getD []).length := by
  have hfun : ∀ l : PopupLesson,
      ({ content := renderIdField l.id ++ ". " ++ renderStrField l.title ++ " []"
         description :=
           "- Duration: " ++ renderStrField l.duration ++ " min\n- Url: " ++
             renderStrField l.lessonUrl } : TaskItem) = taskForSpec l := by
    intro l
    obtain ⟨lid, ltitle, ldur, lurl⟩ := l
    cases lid <;> cases ltitle <;> cases ldur <;> cases lurl <;> rfl
  constructor
  · unfold buildV2Payload
    rw [funext hfun]
  · simp [buildV2Payload]

/-- C1: lesson IDs form the contiguous run from 1 in traversal order; the
section counter ends at 1001 plus one per header plus one for the synthetic
section (created exactly when a list node precedes every header); the header
at any position consumes exactly the next section ID in traversal order, so
assigned section IDs are the contiguous run from 1001; pre-header lessons all
carry the synthetic section 1001 with empty title and duration; and every
referenced section ID lies in the assigned range. -/
theorem c1_walker_id_runs (origin : String) (nodes : List WalkNode) :
    (extractLessons origin nodes).map Lesson.id =
      List.range' 1 (extractLessons origin nodes).length ∧
    ((walkNodes origin nodes initWalkState).2).nextSectionId =
      1001 + countHeaders nodes + synthBit nodes ∧
    (∀ (p : List WalkNode) (t d : Option String),
      ((walkNodes origin (p ++ [WalkNode.header t d]) initWalkState).2).currentSection =
        some { id := 1001 + countHeaders p + synthBit p
               title := cleanText (t.getD "")
               duration := extractMinutes (d.getD "") }) ∧
    (∀ l ∈ (extractLessons origin nodes).take (preItemCount nodes),
      l.sectionId = 1001 ∧ l.sectionTitle = "" ∧ l.sectionDuration = "") ∧
    (∀ l ∈ extractLessons origin nodes,
      1001 ≤ l.sectionId ∧
        l.sectionId < 1001 + countHeaders nodes + synthBit nodes) := by
  refine ⟨?_, ?_, ?_, ?_, ?_⟩
  · have h := (walkNodes_lessonIds origin nodes initWalkState).2
    simpa [extractLessons, initWalkState] using h
  · have h := walkNodes_sectionCounter origin nodes initWalkState
    simpa [initWalkState] using h
  · intro p t d
    rw [walkNodes_append]
    have hc := walkNodes_sectionCounter origin p initWalkState
    simp only [walkNodes]
    rw [hc]
    simp [initWalkState]
  · intro l hl
    exact walkNodes_preHeader_synthetic origin nodes initWalkState rfl l hl
  · intro l hl
    have hl' : l ∈ (walkNodes origin nodes initWalkState).1 := hl
    constructor
    · exact walkNodes_sectionId_lb origin nodes initWalkState 1001
        (by simp [initWalkState]) (by intro sec h; simp [initWalkState] at h) l hl'
    · have hub := walkNodes_sectionId_ub origin nodes initWalkState
        (by intro sec h; simp [initWalkState] at h) l hl'
      have hc := walkNodes_sectionCounter origin nodes initWalkState
      rw [hc] at hub
      simpa [initWalkState] using hub

/-- C1, witness at the sample traversal (pre-header list of two items, a
titled header with one lesson, a trailing empty header): lesson IDs are 1, 2,
3; the first lesson carries the synthetic section 1001 with empty fields and
lies in the assigned range below 1004; and after the pre-header list the
titled header consumes exactly section ID 1002. -/
theorem c1_walker_id_runs_witness :
    (extractLessons "https://frontendmasters.com" Samples.walkSeq).map Lesson.id =
      List.range' 1 3 ∧
    (Samples.preLesson.sectionId = 1001 ∧ Samples.preLesson.sectionTitle = "" ∧
      Samples.preLesson.sectionDuration = "") ∧
    (1001 ≤ Samples.preLesson.sectionId ∧ Samples.preLesson.sectionId < 1004) ∧
    ((walkNodes "https://frontendmasters.com"
        ([WalkNode.list [Samples.bareItem, Samples.bareItem]] ++
          [WalkNode.header (some "A") (some "5 mins")]) initWalkState).2).currentSection =
      some { id := 1002, title := "A", duration := "5" } :=
  ⟨(c1_walker_id_runs "https://frontendmasters.com" Samples.walkSeq).1,
    (c1_walker_id_runs "https://frontendmasters.com" Samples.walkSeq).2.2.2.1
      Samples.preLesson (by decide),
    (c1_walker_id_runs "https://frontendmasters.com" Samples.walkSeq).2.2.2.2
      Samples.preLesson (by decide),
    (c1_walker_id_runs "https://frontendmasters.com" Samples.walkSeq).2.2.1
      [WalkNode.list [Samples.bareItem, Samples.bareItem]] (some "A") (some "5 mins")⟩

/-- C10: in the walker's output, sectionId values are non-decreasing in list
(that is lesson-id) order, and any two lessons with the same sectionId carry
identical sectionTitle and sectionDuration snapshots. -/
theorem c10_section_snapshots (origin : String) (nodes : List WalkNode) :
    List.Chain' (fun a b => a ≤ b)
      ((extractLessons origin nodes).map Lesson.sectionId) ∧
    ∀ l1 ∈ extractLessons origin nodes, ∀ l2 ∈ extractLessons origin nodes,
      l1.sectionId = l2.sectionId →
        l1.sectionTitle = l2.sectionTitle ∧
          l1.sectionDuration = l2.sectionDuration := by
  obtain ⟨_, hpw⟩ := walkNodes_sections_pairwise origin nodes initWalkState
    (by intro sec h; simp [initWalkState] at h)
  constructor
  · exact (List.Pairwise.map Lesson.sectionId (fun a b hab => hab.1) hpw).chain'
  · intro l1 h1 l2 h2 heq
    by_cases hsame : l1 = l2
    · subst hsame
      exact ⟨rfl, rfl⟩
    · have hpw' : (extractLessons origin nodes).Pairwise
          (fun a b : Lesson => a.sectionId = b.sectionId →
            a.sectionTitle = b.sectionTitle ∧ a.sectionDuration = b.sectionDuration) :=
        hpw.imp (fun {a b} hab => hab.2)
      have hsym : Symmetric (fun a b : Lesson => a.sectionId = b.sectionId →
          a.sectionTitle = b.sectionTitle ∧ a.sectionDuration = b.sectionDuration) := by
        intro a b hab hba
        obtain ⟨t, u⟩ := hab hba.symm
        exact ⟨t.symm, u.symm⟩
      exact hpw'.forall hsym h1 h2 hsame heq

/-- C10, witness at the sample traversal: the two pre-header lessons share
sectionId 1001 and indeed carry identical section snapshots. -/
theorem c10_section_snapshots_witness :
    Samples.preLesson.sectionTitle = Samples.preLesson2.sectionTitle ∧
    Samples.preLesson.sectionDuration = Samples.preLesson2.sectionDuration :=
  (c10_section_snapshots "https://frontendmasters.com" Samples.walkSeq).2
    Samples.preLesson (by decide) Samples.preLesson2 (by decide) rfl

/-- C2: when extraction succeeds, the assembled sectionCount equals the
number of distinct sectionId values among the produced lessons, and
lessonCount equals the length of the lessons list. -/
theorem c2_payload_counts (origin pathname : String) (dom : PageDom)
    (res : PayloadResult)
    (h : extractCoursePayload origin pathname dom = Except.ok res) :
    res.payload.courseData.sectionCount =
      (res.payload.lessons.map Lesson.sectionId).dedup.length ∧
    res.payload.courseData.lessonCount = res.payload.lessons.length := by
  simp only [extractCoursePayload] at h
  split at h
  · exact absurd h (by simp)
  · split at h
    · exact absurd h (by simp)
    · cases h
      refine ⟨?_, rfl⟩
      have hfin : numberIsFinite = fun _ : Nat => true := rfl
      rw [hfin, List.filter_true]

/-- C2, witness: on the sample page — two headers consuming section IDs 1001
and 1002 but only the second referenced by a lesson — the assembled counts
match the distinct-reference count 1 and the lesson count 1. -/
theorem c2_payload_counts_witness :
    Samples.pageRes.payload.courseData.sectionCount =
      (Samples.pageRes.payload.lessons.map Lesson.sectionId).dedup.length ∧
    Samples.pageRes.payload.courseData.lessonCount =
      Samples.pageRes.payload.lessons.length :=
  c2_payload_counts "https://frontendmasters.com" "/courses/react/"
    Samples.pageDom Samples.pageRes rfl

/-- C6, counterexample: the claim reads the slug as the first non-empty path
segment after a literal courses segment, wherever that segment occurs; on the
path /en/courses/react/ that reading yields the slug react with a non-empty
course title on the page, so the claim predicts success, yet the code — which
requires courses to be the first non-empty segment — throws the format
error before reading the DOM. -/
theorem c6_claim_counterexample :
    claimSlugC6 "/en/courses/react/" = "react" ∧
    cleanText (Samples.pageDom.headerTitle.getD "") ≠ "" ∧
    extractCoursePayload "https://frontendmasters.com" "/en/courses/react/"
        Samples.pageDom =
      Except.error "URL is not in /courses/<course-slug>/ format." :=
  ⟨rfl, by decide, rfl⟩

/-- C6, amended: extractCoursePayload fails exactly when the slug derivation
fails or the extracted course title is empty, where the slug exists exactly
when the first non-empty path segment is the literal courses and a second
non-empty segment follows (the slug); a failing slug check produces the
format error with no dependence on the page content, and everything else
degrades to empty-string fields (all embedded functions are total, so no
other input can make extraction fail). -/
theorem c6_error_conditions (origin pathname : String) (dom : PageDom) :
    ((∃ e, extractCoursePayload origin pathname dom = Except.error e) ↔
      getCourseSlug pathname = "" ∨ cleanText (dom.headerTitle.getD "") = "") ∧
    (getCourseSlug pathname = "" →
      extractCoursePayload origin pathname dom =
        Except.error "URL is not in /courses/<course-slug>/ format.") ∧
    (getCourseSlug pathname ≠ "" ↔
      ∃ slug rest,
        ((splitOnCh '/' pathname.data).map (fun p => (⟨p⟩ : String))).filter
            (fun s => s ≠ "") =
          "courses" :: slug :: rest) := by
  refine ⟨?_, ?_, ?_⟩
  · by_cases hslug : getCourseSlug pathname = ""
    · simp [extractCoursePayload, hslug]
    · by_cases htitle : cleanText (dom.headerTitle.getD "") = ""
      · simp [extractCoursePayload, hslug, extractCourseData, htitle]
      · simp [extractCoursePayload, hslug, extractCourseData, htitle]
  · intro hslug
    simp [extractCoursePayload, hslug]
  · rcases hp : ((splitOnCh '/' pathname.data).map (fun p => (⟨p⟩ : String))).filter
        (fun s => s ≠ "") with _ | ⟨p0, _ | ⟨p1, rest⟩⟩
    · simp only [getCourseSlug]
      rw [hp]
      simp
    · simp only [getCourseSlug]
      rw [hp]
      simp
    · by_cases hc : p0 = "courses"
      · subst hc
        have hp1 : p1 ≠ "" := by
          have hmem : p1 ∈ ((splitOnCh '/' pathname.data).map
              (fun p => (⟨p⟩ : String))).filter (fun s => s ≠ "") := by
            rw [hp]
            simp
          simpa using (List.mem_filter.mp hmem).2
        simp only [getCourseSlug]
        rw [hp]
        constructor
        · intro _
          exact ⟨p1, rest, rfl⟩
        · intro _
          simpa using hp1
      · simp only [getCourseSlug]
        rw [hp]
        simp [hc]

/-- C6, witness for the amended theorem: the format-error implication fires
on a path whose first segment is not courses, and the slug characterization
holds on the react course path. -/
theorem c6_error_conditions_witness :
    extractCoursePayload "https://frontendmasters.com" "/en/courses/react/"
        Samples.pageDom =
      Except.error "URL is not in /courses/<course-slug>/ format." ∧
    (getCourseSlug "/courses/react/" ≠ "" ↔
      ∃ slug rest,
        ((splitOnCh '/' "/courses/react/".data).map (fun p => (⟨p⟩ : String))).filter
            (fun s => s ≠ "") =
          "courses" :: slug :: rest) :=
  ⟨(c6_error_conditions "https://frontendmasters.com" "/en/courses/react/"
      Samples.pageDom).2.1 (by decide),
    (c6_error_conditions "https://frontendmasters.com" "/courses/react/"
      Samples.pageDom).2.2⟩

/-- C3, counterexample: the claim says every structured ok-false response
surfaces its error immediately with no retry, but when the structured error
string itself contains the no-receiver signal text, the code's catch treats
it as a missing receiver and performs recovery plus a retry: on the sneaky
environment the invocation ends in the retry's success with a trace of two
sends around an injection, not in the immediate error the claim requires. -/
theorem c3_claim_counterexample :
    requestCourseData (some Samples.okTab) Samples.sneakyEnv =
      (Except.ok (some 42), [OrchAction.send, OrchAction.inject, OrchAction.send]) ∧
    (Except.ok (some 42) : Except String (Option Nat)) ≠
      Except.error "Receiving end does not exist" :=
  ⟨rfl, by simp⟩

/-- C3, amended: for every export invocation with a valid course tab — a
structured ok-false response whose error string does not carry the
no-receiver signal surfaces that error immediately with no retry; a send
rejection without the signal propagates with no retry; any caught failure
carrying the signal — whether a send rejection or a structured ok-false
response whose error string contains the signal text — triggers exactly one
recovery: injection when scripting is available, otherwise a reload and a
wait bounded by 15000 ms for the complete status, failing with the
manual-reload instruction on timeout, followed by exactly one retry whose
outcome (success or failure) is returned unchanged; and in every environment
the invocation performs at most two sends and at most one recovery
action. -/
theorem c3_orchestrator_amended {α : Type} (tab : TabInfo) (env : OrchEnv α)
    (htab : assertValidCourseTab (some tab) = Except.ok tab) :
    (∀ resp e, env.firstSend = Except.ok resp →
      parseExtractResponse resp = Except.error e →
      isMissingReceiverError e = false →
      requestCourseData (some tab) env = (Except.error e, [OrchAction.send])) ∧
    (∀ m, env.firstSend = Except.error m → isMissingReceiverError m = false →
      requestCourseData (some tab) env = (Except.error m, [OrchAction.send])) ∧
    (∀ m, env.firstSend = Except.error m → isMissingReceiverError m = true →
      env.scriptingAvailable = true → env.injectOutcome = Except.ok () →
      requestCourseData (some tab) env =
        ((retrySend env).1,
          [OrchAction.send, OrchAction.inject, OrchAction.send])) ∧
    (∀ m, env.firstSend = Except.error m → isMissingReceiverError m = true →
      env.scriptingAvailable = false → env.reloadOutcome = Except.ok () →
      env.completeWithin 15000 = true →
      requestCourseData (some tab) env =
        ((retrySend env).1,
          [OrchAction.send, OrchAction.reload, OrchAction.waitComplete,
            OrchAction.send])) ∧
    (∀ m, env.firstSend = Except.error m → isMissingReceiverError m = true →
      env.scriptingAvailable = false → env.reloadOutcome = Except.ok () →
      env.completeWithin 15000 = false →
      requestCourseData (some tab) env =
        (Except.error
            "Tab reload timed out. Please reload the page manually and try again.",
          [OrchAction.send, OrchAction.reload, OrchAction.waitComplete])) ∧
    (∀ resp e, env.firstSend = Except.ok resp →
      parseExtractResponse resp = Except.error e →
      isMissingReceiverError e = true →
      env.scriptingAvailable = true → env.injectOutcome = Except.ok () →
      requestCourseData (some tab) env =
        ((retrySend env).1,
          [OrchAction.send, OrchAction.inject, OrchAction.send])) ∧
    (∀ resp e, env.firstSend = Except.ok resp →
      parseExtractResponse resp = Except.error e →
      isMissingReceiverError e = true →
      env.scriptingAvailable = false → env.reloadOutcome = Except.ok () →
      env.completeWithin 15000 = true →
      requestCourseData (some tab) env =
        ((retrySend env).1,
          [OrchAction.send, OrchAction.reload, OrchAction.waitComplete,
            OrchAction.send])) ∧
    (∀ resp e, env.firstSend = Except.ok resp →
      parseExtractResponse resp = Except.error e →
      isMissingReceiverError e = true →
      env.scriptingAvailable = false → env.reloadOutcome = Except.ok () →
      env.completeWithin 15000 = false →
      requestCourseData (some tab) env =
        (Except.error
            "Tab reload timed out. Please reload the page manually and try again.",
          [OrchAction.send, OrchAction.reload, OrchAction.waitComplete])) ∧
    ((requestCourseData (some tab) env).2.count OrchAction.send ≤ 2 ∧
      (requestCourseData (some tab) env).2.count OrchAction.inject +
        (requestCourseData (some tab) env).2.count OrchAction.reload ≤ 1) := by
  refine ⟨?_, ?_, ?_, ?_, ?_, ?_, ?_, ?_, ?_⟩
  · intro resp e h1 h2 h3
    simp [requestCourseData, htab, h1, h2, h3]
  · intro m h1 h3
    simp [requestCourseData, htab, h1, h3]
  · intro m h1 h2 h3 h4
    simp [requestCourseData, htab, h1, h2, recoverAndRetry, h3, h4, retrySend_trace]
  · intro m h1 h2 h3 h4 h5
    simp [requestCourseData, htab, h1, h2, recoverAndRetry, refreshTabAndWait,
      waitForTabComplete, h3, h4, h5, retrySend_trace]
  · intro m h1 h2 h3 h4 h5
    simp [requestCourseData, htab, h1, h2, recoverAndRetry, refreshTabAndWait,
      waitForTabComplete, h3, h4, h5]
  · intro resp e h1 h2 h3 h4 h5
    simp [requestCourseData, htab, h1, h2, h3, recoverAndRetry, h4, h5, retrySend_trace]
  · intro resp e h1 h2 h3 h4 h5 h6
    simp [requestCourseData, htab, h1, h2, h3, recoverAndRetry, refreshTabAndWait,
      waitForTabComplete, h4, h5, h6, retrySend_trace]
  · intro resp e h1 h2 h3 h4 h5 h6
    simp [requestCourseData, htab, h1, h2, h3, recoverAndRetry, refreshTabAndWait,
      waitForTabComplete, h4, h5, h6]
  · obtain ⟨hr1, hr2⟩ := recoverAndRetry_counts env
    simp only [requestCourseData, htab]
    split
    · split
      · constructor
        · simp [List.count_cons]
          omega
        · simp [List.count_cons]
          omega
      · simp [List.count_cons, List.count_nil]
    · split
      · simp [List.count_cons, List.count_nil]
      · split
        · constructor
          · simp [List.count_cons]
            omega
          · simp [List.count_cons]
            omega
        · simp [List.count_cons, List.count_nil]

/-- C3, witness for the amended theorem: on the timeout environment (genuine
no-receiver rejection, no scripting, reload never completes) the invocation
fails with the manual-reload instruction after one send, one reload and one
wait; on the sneaky environment (structured ok-false response carrying the
signal, scripting available) it performs exactly one injection and one retry;
on the sneaky timeout environment (same structured response, no scripting,
reload never completes) it fails with the manual-reload instruction; and the
effect-count bounds hold. -/
theorem c3_orchestrator_amended_witness :
    requestCourseData (some Samples.okTab) Samples.timeoutEnv =
      (Except.error
          "Tab reload timed out. Please reload the page manually and try again.",
        [OrchAction.send, OrchAction.reload, OrchAction.waitComplete]) ∧
    requestCourseData (some Samples.okTab) Samples.sneakyEnv =
      ((retrySend Samples.sneakyEnv).1,
        [OrchAction.send, OrchAction.inject, OrchAction.send]) ∧
    requestCourseData (some Samples.okTab) Samples.sneakyTimeoutEnv =
      (Except.error
          "Tab reload timed out. Please reload the page manually and try again.",
        [OrchAction.send, OrchAction.reload, OrchAction.waitComplete]) ∧
    ((requestCourseData (some Samples.okTab) Samples.timeoutEnv).2.count
        OrchAction.send ≤ 2 ∧
      (requestCourseData (some Samples.okTab) Samples.timeoutEnv).2.count
          OrchAction.inject +
        (requestCourseData (some Samples.okTab) Samples.timeoutEnv).2.count
          OrchAction.reload ≤ 1) :=
  ⟨(c3_orchestrator_amended Samples.okTab Samples.timeoutEnv rfl).2.2.2.2.1
      "Could not establish connection. Receiving end does not exist."
      rfl rfl rfl rfl rfl,
    (c3_orchestrator_amended Samples.okTab Samples.sneakyEnv rfl).2.2.2.2.2.1
      (some { ok := false, error := "Receiving end does not exist", data := none })
      "Receiving end does not exist" rfl rfl rfl rfl rfl,
    (c3_orchestrator_amended Samples.okTab Samples.sneakyTimeoutEnv rfl).2.2.2.2.2.2.2.1
      (some { ok := false, error := "Receiving end does not exist", data := none })
      "Receiving end does not exist" rfl rfl rfl rfl rfl rfl,
    (c3_orchestrator_amended Samples.okTab Samples.timeoutEnv rfl).2.2.2.2.2.2.2.2⟩

/-- C4, counterexample: the claim as stated (split on the first dash into
exactly two non-empty trimmed parts, anything else empty) disagrees with the
code on the input consisting of a dash followed by 120: the claim yields the
empty string because the first part is empty, while the code splits into two
parts, coerces the empty start to 0 seconds, and returns 2; on input
5-6:-5 the claim yields 6 via the split on the first dash only, while the
code, splitting on every dash, yields the empty string. -/
theorem c4_claim_counterexample :
    getDurationFromTimeRange "-120" = "2" ∧ durationClaimC4 "-120" = "" ∧
    getDurationFromTimeRange "5-6:-5" = "" ∧ durationClaimC4 "5-6:-5" = "6" :=
  ⟨rfl, rfl, rfl, rfl⟩

/-- C4, amended: getDurationFromTimeRange splits the cleaned text on every
dash character; unless this yields exactly two parts (each cleaned, possibly
empty -- an empty part coerces to 0 seconds) the result is the empty string;
both parts are converted via timestampToSeconds, the result is empty if
either conversion is invalid or the end is before the start, and otherwise it
is the rounded minute difference as a string; the two cited examples hold. -/
theorem c4_time_range_amended (value : String) :
    ((splitOnCh '-' (cleanText value).data).length ≠ 2 →
      getDurationFromTimeRange value = "") ∧
    (∀ p0 p1,
      (splitOnCh '-' (cleanText value).data).map (fun p => cleanText ⟨p⟩) = [p0, p1] →
      getDurationFromTimeRange value =
        match timestampToSeconds p0, timestampToSeconds p1 with
        | some s, some e =>
          if JsNum.blt e s then "" else toString (jsRound (JsNum.divSixty (JsNum.sub e s)))
        | _, _ => "") ∧
    getDurationFromTimeRange "01:02:00-01:05:00" = "3" ∧
    getDurationFromTimeRange "05:00-02:00" = "" := by
  refine ⟨?_, ?_, rfl, rfl⟩
  · intro hlen
    by_cases h : cleanText value = ""
    · simp [getDurationFromTimeRange, h]
    · simp only [getDurationFromTimeRange, if_neg h]
      rcases hsp : splitOnCh '-' (cleanText value).data with _ | ⟨a, _ | ⟨b, _ | ⟨c, t⟩⟩⟩
      · simp
      · simp
      · rw [hsp] at hlen
        simp at hlen
      · simp
  · intro p0 p1 hmap
    by_cases h : cleanText value = ""
    · have hd : (cleanText value).data = [] := by rw [h]
      rw [hd] at hmap
      simp [splitOnCh] at hmap
    · simp only [getDurationFromTimeRange, if_neg h]
      rw [hmap]

/-- C4, witness for the amended theorem at concrete inputs: a three-part
split yields the empty string, and the first cited example evaluates through
the two-part branch. -/
theorem c4_time_range_amended_witness :
    getDurationFromTimeRange "1-2-3" = "" ∧
    getDurationFromTimeRange "01:02:00-01:05:00" = "3" :=
  ⟨(c4_time_range_amended "1-2-3").1 (by decide),
    ((c4_time_range_amended "01:02:00-01:05:00").2.1 "01:02:00" "01:05:00" rfl).trans rfl⟩

/-- C5, counterexample: the claim as stated (invalid exactly for zero
segments, more than three segments, or a segment that is not a plain integer)
disagrees with the code: the empty string splits into one empty segment,
which is not a plain integer, yet Number() coerces it to 0 and the code
returns 0 seconds rather than the sentinel; likewise a fractional segment
like 1.5 is not a plain integer yet coerces to a number. -/
theorem c5_claim_counterexample :
    timestampToSeconds "" = some jsZero ∧ timeToSecondsClaimC5 "" = none ∧
    timestampToSeconds "0:1.5" = some ⟨15, 10⟩ ∧ timeToSecondsClaimC5 "0:1.5" = none :=
  ⟨rfl, rfl, rfl, rfl⟩

/-- C5, amended: timestampToSeconds returns the invalid sentinel exactly when
the cleaned text split on the colon yields more than three segments or some
segment fails Number() coercion; zero segments cannot arise (splitting the
empty string yields one empty segment, which coerces to 0), segments may be
any Number()-numeric strings rather than only plain integers, and otherwise
one segment is seconds, two are interpreted as minutes and seconds, and three
as hours, minutes and seconds; every produced value is a genuine rational
with a positive denominator. -/
theorem c5_timestamp_amended (value : String) :
    (timestampToSeconds value = none ↔
      3 < (splitOnCh ':' (cleanText value).data).length ∨
        ∃ p ∈ splitOnCh ':' (cleanText value).data, jsNumber ⟨p⟩ = none) ∧
    (∀ a, (splitOnCh ':' (cleanText value).data).map (fun p => jsNumber ⟨p⟩) = [some a] →
      timestampToSeconds value = some a) ∧
    (∀ a b,
      (splitOnCh ':' (cleanText value).data).map (fun p => jsNumber ⟨p⟩) =
        [some a, some b] →
      timestampToSeconds value = some (JsNum.add (JsNum.scale 60 a) b)) ∧
    (∀ a b c,
      (splitOnCh ':' (cleanText value).data).map (fun p => jsNumber ⟨p⟩) =
        [some a, some b, some c] →
      timestampToSeconds value =
        some (JsNum.add (JsNum.add (JsNum.scale 3600 a) (JsNum.scale 60 b)) c)) ∧
    (∀ q, timestampToSeconds value = some q → 0 < q.den) := by
  have hne := splitOnCh_ne_nil ':' (cleanText value).data
  refine ⟨?_, ?_, ?_, ?_, ?_⟩
  · by_cases hany : ∃ p ∈ splitOnCh ':' (cleanText value).data, jsNumber ⟨p⟩ = none
    · have hguard :
          ((splitOnCh ':' (cleanText value).data).map (fun p => jsNumber ⟨p⟩)).any
            (fun p => p.isNone) = true := by
        simp only [List.any_eq_true]
        obtain ⟨p, hp, hnone⟩ := hany
        exact ⟨jsNumber ⟨p⟩, List.mem_map_of_mem _ hp, by simp [hnone]⟩
      simp [timestampToSeconds, hguard, hany]
    · have hall : ∀ p ∈ splitOnCh ':' (cleanText value).data, ∃ q, jsNumber ⟨p⟩ = some q := by
        intro p hp
        cases hj : jsNumber ⟨p⟩
        · exact absurd ⟨p, hp, hj⟩ hany
        · exact ⟨_, rfl⟩
      have hguard :
          ((splitOnCh ':' (cleanText value).data).map (fun p => jsNumber ⟨p⟩)).any
            (fun p => p.isNone) = false := by
        rw [Bool.eq_false_iff]
        intro hcontra
        rw [List.any_eq_true] at hcontra
        obtain ⟨x, hx, hxnone⟩ := hcontra
        rcases List.mem_map.mp hx with ⟨p, hp, rfl⟩
        obtain ⟨q, hq⟩ := hall p hp
        simp [hq] at hxnone
      rcases hsp : splitOnCh ':' (cleanText value).data with
          _ | ⟨a, _ | ⟨b, _ | ⟨c, _ | ⟨d, t⟩⟩⟩⟩
      · exact absurd hsp hne
      · obtain ⟨qa, hqa⟩ := hall a (by rw [hsp]; exact List.mem_cons_self _ _)
        rw [hsp] at hguard
        simp [timestampToSeconds, hsp, hqa, hguard]
      · obtain ⟨qa, hqa⟩ := hall a (by rw [hsp]; exact List.mem_cons_self _ _)
        obtain ⟨qb, hqb⟩ := hall b (by rw [hsp]; simp)
        rw [hsp] at hguard
        simp [timestampToSeconds, hsp, hqa, hqb, hguard]
      · obtain ⟨qa, hqa⟩ := hall a (by rw [hsp]; exact List.mem_cons_self _ _)
        obtain ⟨qb, hqb⟩ := hall b (by rw [hsp]; simp)
        obtain ⟨qc, hqc⟩ := hall c (by rw [hsp]; simp)
        rw [hsp] at hguard
        simp [timestampToSeconds, hsp, hqa, hqb, hqc, hguard]
      · rw [hsp] at hguard
        simp [timestampToSeconds, hsp, hguard]
  · intro a hmap
    simp only [timestampToSeconds]
    rw [hmap]
    rfl
  · intro a b hmap
    simp only [timestampToSeconds]
    rw [hmap]
    rfl
  · intro a b c hmap
    simp only [timestampToSeconds]
    rw [hmap]
    rfl
  · intro q h
    have hmem : ∀ x ∈ (splitOnCh ':' (cleanText value).data).map (fun p => jsNumber ⟨p⟩),
        0 < (x.getD jsZero).den := by
      intro x hx
      rcases List.mem_map.mp hx with ⟨p, _, rfl⟩
      exact getD_jsNumber_den_pos p
    simp only [timestampToSeconds] at h
    split at h
    · exact absurd h (by simp)
    · split at h
      · rename_i h1 m1 s1 heq
        cases h
        simp only [JsNum.add, JsNum.scale]
        refine Nat.mul_pos (Nat.mul_pos (hmem _ ?_) (hmem _ ?_)) (hmem _ ?_) <;>
          (rw [heq]; simp)
      · rename_i m1 s1 heq
        cases h
        simp only [JsNum.add, JsNum.scale]
        refine Nat.mul_pos (hmem _ ?_) (hmem _ ?_) <;> (rw [heq]; simp)
      · rename_i s1 heq
        cases h
        exact hmem _ (by rw [heq]; simp)
      · exact absurd h (by simp)

/-- C5, witness for the amended theorem at concrete inputs: one, two and
three segment timestamps evaluate to the weighted sums, and a four segment
timestamp is invalid by the characterization. -/
theorem c5_timestamp_amended_witness :
    timestampToSeconds "01:02:00" =
      some (JsNum.add (JsNum.add (JsNum.scale 3600 ⟨1, 1⟩) (JsNum.scale 60 ⟨2, 1⟩)) ⟨0, 1⟩) ∧
    timestampToSeconds "02:30" = some (JsNum.add (JsNum.scale 60 ⟨2, 1⟩) ⟨30, 1⟩) ∧
    timestampToSeconds "45" = some ⟨45, 1⟩ ∧
    timestampToSeconds "1:2:3:4" = none ∧
    (∀ q, timestampToSeconds "01:02:00" = some q → 0 < q.den) :=
  ⟨(c5_timestamp_amended "01:02:00").2.2.2.1 ⟨1, 1⟩ ⟨2, 1⟩ ⟨0, 1⟩ rfl,
    (c5_timestamp_amended "02:30").2.2.1 ⟨2, 1⟩ ⟨30, 1⟩ rfl,
    (c5_timestamp_amended "45").2.1 ⟨45, 1⟩ rfl,
    (c5_timestamp_amended "1:2:3:4").1.mpr (Or.inl (by decide)),
    (c5_timestamp_amended "01:02:00").2.2.2.2⟩

end Claims
